import Mathlib

/-!
Verification of the instruction fine-tuning orchestration script
(`src/finetune.py`) against its natural-language specification.

The script is straight-line glue code composing library calls, so we embed
it shallowly as a trace semantics: each run of `train_epoch`, `train` and
`main` is modelled as the list of externally visible effects (library calls)
it performs, in program order.  Machine-level details carried by the calls
(learning rates, batch sizes, paths, flags) are recorded in the events so
that data-flow claims can be stated.  The LoRA wrapping is additionally
modelled at the level of model parameters, so that claims about frozen and
trainable weights can be stated.
-/

namespace Finetune

/-- Task types of the peft `TaskType` enumeration (the members relevant
here; the script uses `CAUSAL_LM`). -/
inductive TaskType where
  | causalLM
  | seq2seqLM
  | seqCls
  | tokenCls
deriving DecidableEq, Repr

/-- The LoRA configuration record, mirroring the fields of the peft
`LoraConfig` class that the script sets: task type, inference mode, rank `r`,
scaling `lora_alpha` and `lora_dropout`. -/
structure LoraConfig where
  taskType : TaskType
  inferenceMode : Bool
  r : Nat
  loraAlpha : Nat
  loraDropout : ℚ
deriving DecidableEq, Repr

/-- The configuration literal built inside `LoRAWapper`
(`finetune.py` line 37-39): `task_type=TaskType.CAUSAL_LM,
inference_mode=False, r=8, lora_alpha=32, lora_dropout=0.1`. -/
def loraCfg : LoraConfig :=
  { taskType := TaskType.causalLM
    inferenceMode := false
    r := 8
    loraAlpha := 32
    loraDropout := 1/10 }

/-- A named model parameter together with its trainability flag
(`requires_grad` in torch terms). -/
structure Param where
  name : String
  trainable : Bool
deriving DecidableEq, Repr

/-- A base model, seen as its list of parameters. -/
structure Model where
  params : List Param
deriving DecidableEq, Repr

/-- A peft-wrapped model: the (frozen) base parameters, the injected
adapter parameters, and the adapter configuration. -/
structure PeftModel where
  baseParams : List Param
  adapterParams : List Param
  config : LoraConfig
deriving DecidableEq, Repr

/-- Modelled from the spec: the peft library call `get_peft_model` is not
part of this repository; the spec describes LoRA as a technique "that
injects small trainable low-rank matrices into a frozen pretrained model".
Accordingly the wrapped model keeps every base parameter with its
trainability turned off and, for each base parameter, injects a pair of
low-rank factor parameters that are trainable exactly when the
configuration is not in inference mode. -/
def get_peft_model (model : Model) (cfg : LoraConfig) : PeftModel :=
  { baseParams := model.params.map (fun p => { p with trainable := false })
    adapterParams := model.params.flatMap (fun p =>
      [{ name := p.name ++ ".lora_A", trainable := !cfg.inferenceMode },
       { name := p.name ++ ".lora_B", trainable := !cfg.inferenceMode }])
    config := cfg }

/-- `LoRAWapper` (`finetune.py` lines 36-42, source spelling kept): builds
the LoRA configuration and wraps the model with `get_peft_model`. -/
def LoRAWapper (model : Model) : PeftModel :=
  get_peft_model model loraCfg

/-- The distributed-execution backends the script can select
(`finetune.py` lines 51-60), with the constructor arguments the script
passes to each plugin class. -/
inductive Plugin where
  | torchDDP
  | gemini (placementPolicy : String) (strictDdpMode : Bool)
  | lowLevelZero (stage : Nat) (cpuOffload : Bool)
  | torchFSDP
deriving DecidableEq, Repr

/-- The plugin selection chain of `train` (`finetune.py` lines 51-60):
an `if/elif` ladder on the string value of `--plugin`, falling back to
`None`. -/
def selectPlugin (s : String) : Option Plugin :=
  if s = "torch_ddp" then some Plugin.torchDDP
  else if s = "gemini" then some (Plugin.gemini "static" true)
  else if s = "low_level_zero" then some (Plugin.lowLevelZero 2 true)
  else if s = "torch_fsdp" then some (Plugin.torchFSDP)
  else none

/-- The parsed command-line arguments of `main` (`finetune.py`
lines 104-111), with the `dest` names used by the script. -/
structure Args where
  model : String
  epoch : Int
  memory_track : Bool
  batch_size : Int
  data_path : String
  max_tokens : Int
  plugin : String
  ckpt : String
deriving DecidableEq, Repr

/-- The closed enumeration the argument parser admits for `--plugin`
(`finetune.py` line 110, `choices=[...]`). -/
def pluginChoices : List String :=
  ["torch_ddp", "gemini", "low_level_zero", "torch_fsdp"]

/-- Default value of `--plugin` (`finetune.py` line 110). -/
def pluginDefault : String := "torch_ddp"

/-- Default value of `--memory-track` (`finetune.py` line 106,
`action="store_true", default=False`). -/
def memoryTrackDefault : Bool := false

/-- Default value of `--epoch` (`finetune.py` line 105). -/
def epochDefault : Int := 1

/-- The externally visible effects (library calls) the script performs,
in program order, with the data each call carries. -/
inductive Event where
  | launch (seed : Nat)
  | loadTokenizer (model : String) (maxTokens : Int)
  | loadModel (model : String)
  | resizeModel
  | prepareDataset (path : String)
  | makeCollator
  | wrapLoRA (cfg : LoraConfig)
  | pluginDataloader (batchSize : Int)
  | plainDataloader (batchSize : Int)
  | makeOptimizer (lr : ℚ)
  | makeScheduler (totalSteps : Int)
  | boost
  | memEnter (label : String) (enabled : Bool)
  | modelTrain (epoch : Nat)
  | forward (batch : Nat)
  | backward (batch : Nat)
  | optStep (batch : Nat)
  | zeroGrad (batch : Nat)
  | schedStep (batch : Nat)
  | reportLoss (batch : Nat)
  | saveCkpt (path : String)
  | memExit (label : String) (enabled : Bool)
deriving DecidableEq, Repr

/-- The body of the batch loop of `train_epoch` (`finetune.py`
lines 24-34): per batch, forward pass producing the loss, booster
backward, optimizer step, gradient reset, scheduler step, progress
report of the loss. -/
def epochLoop : List Nat → List Event
  | [] => []
  | b :: rest =>
      Event.forward b :: Event.backward b :: Event.optStep b ::
      Event.zeroGrad b :: Event.schedStep b :: Event.reportLoss b ::
      epochLoop rest

/-- `train_epoch` (`finetune.py` lines 21-34): puts the model in training
mode, then runs the batch loop over the dataloader.  Batches are
identified by their position in the yield order of the dataloader. -/
def train_epoch (epoch : Nat) (batches : List Nat) : List Event :=
  Event.modelTrain epoch :: epochLoop batches

/-- The Python builtin `range` over an `int`: empty for nonpositive arguments. -/
def pyRange (n : Int) : List Nat := List.range n.toNat

/-- The dataloader-assembly branch of `train` (`finetune.py` lines 77-80):
through the `prepare_dataloader` method of the plugin when the selected plugin is
truthy, through the plain torch `DataLoader` otherwise. -/
def dataloaderEvent (args : Args) : Event :=
  match selectPlugin args.plugin with
  | some _ => Event.pluginDataloader args.batch_size
  | none => Event.plainDataloader args.batch_size

/-- Set-up phase of `train` (`finetune.py` lines 46-91), in source order:
`colossalai.launch_from_torch(seed=42)`, tokenizer construction, model
load, embedding resize, dataset preparation, collator construction, LoRA
wrapping, dataloader assembly, `HybridAdam` with
`lr = LEARNING_RATE * world_size`, linear schedule over
`len(dataloader) * args.epoch` steps, `booster.boost`, and entry into the
`MemoryTracker` context with the `--memory-track` flag. -/
def setupEvents (args : Args) (worldSize : Nat) (learningRate : ℚ)
    (batches : List Nat) : List Event :=
  [Event.launch 42,
   Event.loadTokenizer args.model args.max_tokens,
   Event.loadModel args.model,
   Event.resizeModel,
   Event.prepareDataset args.data_path,
   Event.makeCollator,
   Event.wrapLoRA loraCfg,
   dataloaderEvent args,
   Event.makeOptimizer (learningRate * worldSize),
   Event.makeScheduler ((batches.length : Int) * args.epoch),
   Event.boost,
   Event.memEnter "Finetuning" args.memory_track]

/-- Epoch loop of `train` (`finetune.py` lines 92-93):
`for epoch in range(args.epoch): train_epoch(...)`. -/
def epochEvents (args : Args) (batches : List Nat) : List Event :=
  (pyRange args.epoch).flatMap (fun ep => train_epoch ep batches)

/-- Checkpoint phase of `train` (`finetune.py` lines 94-96): only the
master rank saves the LoRA parameters to `args.ckpt`. -/
def saveEvents (args : Args) (isMaster : Bool) : List Event :=
  if isMaster then [Event.saveCkpt args.ckpt] else []

/-- `train` (`finetune.py` lines 44-96) as the trace of effects of one
run: set-up, the epoch loop and the master-only checkpoint save inside
the `MemoryTracker` context.  `worldSize`, `isMaster`, the dataloader
contents `batches` and the hyper-parameter `LEARNING_RATE` are inputs of
the run supplied by the environment. -/
def train (args : Args) (worldSize : Nat) (isMaster : Bool)
    (batches : List Nat) (learningRate : ℚ) : List Event :=
  setupEvents args worldSize learningRate batches
    ++ epochEvents args batches
    ++ saveEvents args isMaster
    ++ [Event.memExit "Finetuning" args.memory_track]

/-- `main` (`finetune.py` lines 99-116) after argument parsing: the
assertion `assert(not os.path.exists(args.ckpt))` on line 114 aborts the
run before `train` is called; otherwise the run is the trace of `train`.
`pathExists` models `os.path.exists`. -/
def main (args : Args) (pathExists : String → Bool) (worldSize : Nat)
    (isMaster : Bool) (batches : List Nat) (learningRate : ℚ) :
    Except String (List Event) :=
  if pathExists args.ckpt then Except.error "AssertionError"
  else Except.ok (train args worldSize isMaster batches learningRate)

/-- Event classifiers used to state the claims. -/
def isTrainStep : Event → Bool
  | Event.modelTrain _ => true
  | Event.forward _ => true
  | Event.backward _ => true
  | Event.optStep _ => true
  | Event.zeroGrad _ => true
  | Event.schedStep _ => true
  | Event.reportLoss _ => true
  | _ => false

def isSave : Event → Bool
  | Event.saveCkpt _ => true
  | _ => false

def isModelTrain : Event → Bool
  | Event.modelTrain _ => true
  | _ => false

def isForward : Event → Bool
  | Event.forward _ => true
  | _ => false

def isPlainDataloader : Event → Bool
  | Event.plainDataloader _ => true
  | _ => false

def isMakeOptimizer : Event → Bool
  | Event.makeOptimizer _ => true
  | _ => false

/-- A concrete argument vector used to instantiate the theorems below. -/
def exampleArgs : Args :=
  { model := "gpt2"
    epoch := 2
    memory_track := false
    batch_size := 4
    data_path := "data.json"
    max_tokens := 512
    plugin := "torch_ddp"
    ckpt := "./ckpt" }

/-! ### Helper lemmas about the trace structure -/

theorem epochLoop_eq (batches : List Nat) :
    epochLoop batches = batches.flatMap (fun b =>
      [Event.forward b, Event.backward b, Event.optStep b,
       Event.zeroGrad b, Event.schedStep b, Event.reportLoss b]) := by
  induction batches with
  | nil => rfl
  | cons b rest ih => simp [epochLoop, ih]

theorem train_eq (args : Args) (ws : Nat) (master : Bool)
    (batches : List Nat) (lr : ℚ) :
    train args ws master batches lr =
      setupEvents args ws lr batches ++
        (epochEvents args batches ++
          (saveEvents args master ++
            [Event.memExit "Finetuning" args.memory_track])) := by
  simp [train, List.append_assoc]

theorem isTrainStep_dataloaderEvent (args : Args) :
    isTrainStep (dataloaderEvent args) = false := by
  cases h : selectPlugin args.plugin <;> simp [dataloaderEvent, h, isTrainStep]

theorem isSave_dataloaderEvent (args : Args) :
    isSave (dataloaderEvent args) = false := by
  cases h : selectPlugin args.plugin <;> simp [dataloaderEvent, h, isSave]

theorem isTrainStep_of_mem_epochLoop {batches : List Nat} {e : Event}
    (h : e ∈ epochLoop batches) : isTrainStep e = true := by
  induction batches with
  | nil => simp [epochLoop] at h
  | cons b rest ih =>
      simp only [epochLoop, List.mem_cons] at h
      rcases h with rfl | rfl | rfl | rfl | rfl | rfl | h
      · rfl
      · rfl
      · rfl
      · rfl
      · rfl
      · rfl
      · exact ih h

theorem isTrainStep_of_mem_train_epoch {ep : Nat} {batches : List Nat}
    {e : Event} (h : e ∈ train_epoch ep batches) : isTrainStep e = true := by
  rcases List.mem_cons.mp h with rfl | h
  · rfl
  · exact isTrainStep_of_mem_epochLoop h

theorem isTrainStep_of_mem_epochEvents {args : Args} {batches : List Nat}
    {e : Event} (h : e ∈ epochEvents args batches) : isTrainStep e = true := by
  simp only [epochEvents, List.mem_flatMap] at h
  obtain ⟨ep, _, hmem⟩ := h
  exact isTrainStep_of_mem_train_epoch hmem

theorem isSave_eq_false_of_isTrainStep {e : Event}
    (h : isTrainStep e = true) : isSave e = false := by
  cases e <;> simp_all [isTrainStep, isSave]

theorem isTrainStep_eq_false_of_mem_setup {args : Args} {ws : Nat} {lr : ℚ}
    {batches : List Nat} {e : Event}
    (h : e ∈ setupEvents args ws lr batches) : isTrainStep e = false := by
  simp only [setupEvents, List.mem_cons, List.not_mem_nil, or_false] at h
  rcases h with rfl | rfl | rfl | rfl | rfl | rfl | rfl | rfl | rfl | rfl | rfl | rfl
  · rfl
  · rfl
  · rfl
  · rfl
  · rfl
  · rfl
  · rfl
  · exact isTrainStep_dataloaderEvent args
  · rfl
  · rfl
  · rfl
  · rfl

theorem isSave_eq_false_of_mem_setup {args : Args} {ws : Nat} {lr : ℚ}
    {batches : List Nat} {e : Event}
    (h : e ∈ setupEvents args ws lr batches) : isSave e = false := by
  simp only [setupEvents, List.mem_cons, List.not_mem_nil, or_false] at h
  rcases h with rfl | rfl | rfl | rfl | rfl | rfl | rfl | rfl | rfl | rfl | rfl | rfl
  · rfl
  · rfl
  · rfl
  · rfl
  · rfl
  · rfl
  · rfl
  · exact isSave_dataloaderEvent args
  · rfl
  · rfl
  · rfl
  · rfl

theorem setupEvents_length (args : Args) (ws : Nat) (lr : ℚ)
    (batches : List Nat) : (setupEvents args ws lr batches).length = 12 := by
  simp [setupEvents]

end Finetune

namespace Finetune

/-- C1: for every batch yielded by the dataloader, `train_epoch` performs,
in this order, a forward computation producing the loss, a backward
propagation through the booster, an optimizer step, a gradient reset, a
learning-rate schedule step and a progress report of the loss; no step is
skipped or reordered for any batch. -/
theorem train_epoch_steps_per_batch (epoch : Nat) (batches : List Nat) :
    train_epoch epoch batches =
      Event.modelTrain epoch :: batches.flatMap (fun b =>
        [Event.forward b, Event.backward b, Event.optStep b,
         Event.zeroGrad b, Event.schedStep b, Event.reportLoss b]) := by
  simp [train_epoch, epochLoop_eq]

/-- C2: the execution-strategy selector is total on the closed enumeration
of `--plugin` values and maps each value to exactly the corresponding
backend: `TorchDDPPlugin`, `GeminiPlugin` with static placement and strict
DDP mode, `LowLevelZeroPlugin` with stage 2 and CPU offload, and
`TorchFSDPPlugin`. -/
theorem selectPlugin_total_on_choices :
    selectPlugin "torch_ddp" = some Plugin.torchDDP ∧
    selectPlugin "gemini" = some (Plugin.gemini "static" true) ∧
    selectPlugin "low_level_zero" = some (Plugin.lowLevelZero 2 true) ∧
    selectPlugin "torch_fsdp" = some Plugin.torchFSDP ∧
    pluginChoices = ["torch_ddp", "gemini", "low_level_zero", "torch_fsdp"] := by
  refine ⟨rfl, ?_, ?_, ?_, rfl⟩ <;> decide

/-- C3: for every base model, `LoRAWapper` returns the base model wrapped
with low-rank adapters configured with rank 8, scaling alpha 32, dropout
0.1, causal-LM task and training mode, in which every base-model weight is
frozen and only the injected adapter parameters are trainable. -/
theorem LoRAWapper_freezes_base_trains_adapters (m : Model) :
    (LoRAWapper m).config.taskType = TaskType.causalLM ∧
    (LoRAWapper m).config.inferenceMode = false ∧
    (LoRAWapper m).config.r = 8 ∧
    (LoRAWapper m).config.loraAlpha = 32 ∧
    (LoRAWapper m).config.loraDropout = 1/10 ∧
    (LoRAWapper m).baseParams.all (fun p => !p.trainable) = true ∧
    (LoRAWapper m).adapterParams.all (fun p => p.trainable) = true ∧
    (LoRAWapper m).baseParams.map Param.name = m.params.map Param.name := by
  refine ⟨rfl, rfl, rfl, rfl, rfl, ?_, ?_, ?_⟩
  · simp [LoRAWapper, get_peft_model, List.all_eq_true]
  · simp [LoRAWapper, get_peft_model, List.all_eq_true, loraCfg]
  · simp [LoRAWapper, get_peft_model]

/-- C4: when the parsed `--plugin` value is one of the four values the
argument parser admits (whose default `torch_ddp` is itself admitted), the
fallback branch setting the plugin to `None` is unreachable and the
dataloader is assembled through `prepare_dataloader` of the selected
plugin; the plain torch `DataLoader` branch is never taken. -/
theorem plugin_fallback_unreachable (args : Args) (ws : Nat) (master : Bool)
    (batches : List Nat) (lr : ℚ) (h : args.plugin ∈ pluginChoices) :
    pluginDefault ∈ pluginChoices ∧
    (selectPlugin args.plugin).isSome = true ∧
    dataloaderEvent args = Event.pluginDataloader args.batch_size ∧
    (train args ws master batches lr).countP isPlainDataloader = 0 := by
  have hsome : (selectPlugin args.plugin).isSome = true := by
    simp only [pluginChoices, List.mem_cons, List.not_mem_nil, or_false] at h
    rcases h with h | h | h | h <;> simp [selectPlugin, h]
  refine ⟨by decide, hsome, ?_, ?_⟩
  · rcases hp : selectPlugin args.plugin with _ | p
    · rw [hp] at hsome; simp at hsome
    · simp [dataloaderEvent, hp]
  · rw [train_eq]
    have h1 : (setupEvents args ws lr batches).countP isPlainDataloader = 0 := by
      rw [List.countP_eq_zero]
      intro e he
      rcases hp : selectPlugin args.plugin with _ | p
      · rw [hp] at hsome; simp at hsome
      · simp only [setupEvents, List.mem_cons, List.not_mem_nil, or_false] at he
        rcases he with rfl | rfl | rfl | rfl | rfl | rfl | rfl | rfl | rfl | rfl | rfl | rfl <;>
          simp [isPlainDataloader, dataloaderEvent, hp]
    have h2 : (epochEvents args batches).countP isPlainDataloader = 0 := by
      rw [List.countP_eq_zero]
      intro e he
      have := isTrainStep_of_mem_epochEvents he
      cases e <;> simp_all [isTrainStep, isPlainDataloader]
    have h3 : (saveEvents args master).countP isPlainDataloader = 0 := by
      rw [List.countP_eq_zero]
      intro e he
      cases master <;> simp [saveEvents] at he
      subst he; simp [isPlainDataloader]
    simp [List.countP_append, h1, h2, h3, isPlainDataloader]


theorem countP_modelTrain_epochLoop (batches : List Nat) :
    (epochLoop batches).countP isModelTrain = 0 := by
  induction batches with
  | nil => rfl
  | cons b rest ih => simp [epochLoop, List.countP_cons, isModelTrain, ih]

theorem countP_modelTrain_train_epoch (ep : Nat) (batches : List Nat) :
    (train_epoch ep batches).countP isModelTrain = 1 := by
  simp [train_epoch, List.countP_cons, isModelTrain, countP_modelTrain_epochLoop]

theorem countP_forward_epochLoop (batches : List Nat) :
    (epochLoop batches).countP isForward = batches.length := by
  induction batches with
  | nil => rfl
  | cons b rest ih => simp [epochLoop, List.countP_cons, isForward, ih]

theorem countP_forward_train_epoch (ep : Nat) (batches : List Nat) :
    (train_epoch ep batches).countP isForward = batches.length := by
  simp [train_epoch, List.countP_cons, isForward, countP_forward_epochLoop]

theorem countP_flatMap_range_const (p : Event → Bool) (g : Nat → List Event)
    (c : Nat) (hg : ∀ ep, (g ep).countP p = c) (k : Nat) :
    ((List.range k).flatMap g).countP p = k * c := by
  induction k with
  | zero => simp
  | succ n ih =>
      rw [List.range_succ, List.flatMap_append, List.countP_append, ih]
      simp [hg, Nat.succ_mul]

theorem countP_modelTrain_epochEvents (args : Args) (batches : List Nat) :
    (epochEvents args batches).countP isModelTrain = args.epoch.toNat := by
  have := countP_flatMap_range_const isModelTrain (fun ep => train_epoch ep batches) 1
    (fun ep => countP_modelTrain_train_epoch ep batches) args.epoch.toNat
  simpa [epochEvents, pyRange] using this

theorem countP_forward_epochEvents (args : Args) (batches : List Nat) :
    (epochEvents args batches).countP isForward = args.epoch.toNat * batches.length := by
  have := countP_flatMap_range_const isForward (fun ep => train_epoch ep batches)
    batches.length (fun ep => countP_forward_train_epoch ep batches) args.epoch.toNat
  simpa [epochEvents, pyRange] using this

theorem countP_setup_of_trainStep (args : Args) (ws : Nat) (lr : ℚ)
    (batches : List Nat) (p : Event → Bool)
    (hp : ∀ e, isTrainStep e = false → p e = false) :
    (setupEvents args ws lr batches).countP p = 0 := by
  rw [List.countP_eq_zero]
  intro e he
  simp [hp e (isTrainStep_eq_false_of_mem_setup he)]

theorem isModelTrain_false_of_not_trainStep {e : Event}
    (h : isTrainStep e = false) : isModelTrain e = false := by
  cases e <;> simp_all [isTrainStep, isModelTrain]

theorem isForward_false_of_not_trainStep {e : Event}
    (h : isTrainStep e = false) : isForward e = false := by
  cases e <;> simp_all [isTrainStep, isForward]

theorem countP_saveEvents_of_notSave (args : Args) (master : Bool)
    (p : Event → Bool) (hp : ∀ s, p (Event.saveCkpt s) = false) :
    (saveEvents args master).countP p = 0 := by
  cases master <;> simp [saveEvents, List.countP_cons, hp]

/-- C5: for every nonnegative `--epoch` value, `train` invokes the epoch
driver exactly that many times (witnessed by one `model.train` call per
invocation), each invocation being one full pass over the dataloader; with
`--epoch` equal to 0 the driver is never invoked. -/
theorem train_epoch_invocation_count (args : Args) (ws : Nat) (master : Bool)
    (batches : List Nat) (lr : ℚ) (h : 0 ≤ args.epoch) :
    (train args ws master batches lr).countP isModelTrain = args.epoch.toNat ∧
    (train args ws master batches lr).countP isForward =
      args.epoch.toNat * batches.length ∧
    (args.epoch = 0 → (train args ws master batches lr).countP isModelTrain = 0) := by
  have hsetup1 := countP_setup_of_trainStep args ws lr batches isModelTrain
    (fun e he => isModelTrain_false_of_not_trainStep he)
  have hsetup2 := countP_setup_of_trainStep args ws lr batches isForward
    (fun e he => isForward_false_of_not_trainStep he)
  have hsave1 := countP_saveEvents_of_notSave args master isModelTrain (fun s => rfl)
  have hsave2 := countP_saveEvents_of_notSave args master isForward (fun s => rfl)
  have e1 : (train args ws master batches lr).countP isModelTrain = args.epoch.toNat := by
    rw [train_eq]
    simp [List.countP_append, hsetup1, hsave1, countP_modelTrain_epochEvents,
      List.countP_cons, isModelTrain]
  refine ⟨e1, ?_, fun h0 => by simp [e1, h0]⟩
  rw [train_eq]
  simp [List.countP_append, hsetup2, hsave2, countP_forward_epochEvents,
    List.countP_cons, isForward]


theorem ne_memExit_of_step_or_save {e : Event}
    (h : isTrainStep e = true ∨ isSave e = true) :
    ∀ l b, e ≠ Event.memExit l b := by
  intro l b hne
  subst hne
  rcases h with h | h <;> simp [isTrainStep, isSave] at h

theorem trainStep_index_lb {args : Args} {ws : Nat} {master : Bool}
    {batches : List Nat} {lr : ℚ} {m : Nat} {e : Event}
    (h : (train args ws master batches lr)[m]? = some e)
    (hstep : isTrainStep e = true) : 12 ≤ m := by
  by_contra hlt
  push_neg at hlt
  rw [train_eq] at h
  have hm : m < (setupEvents args ws lr batches).length := by
    rw [setupEvents_length]; omega
  rw [List.getElem?_append_left hm] at h
  have hmem := List.getElem?_mem h
  rw [isTrainStep_eq_false_of_mem_setup hmem] at hstep
  exact Bool.false_ne_true hstep


theorem trainStep_index_ub {args : Args} {ws : Nat} {master : Bool}
    {batches : List Nat} {lr : ℚ} {m : Nat} {e : Event}
    (h : (train args ws master batches lr)[m]? = some e)
    (hstep : isTrainStep e = true) :
    m < 12 + (epochEvents args batches).length := by
  by_contra hge
  push_neg at hge
  have hA : (setupEvents args ws lr batches ++ epochEvents args batches).length =
      12 + (epochEvents args batches).length := by
    simp [List.length_append, setupEvents_length]
  have htr : train args ws master batches lr =
      (setupEvents args ws lr batches ++ epochEvents args batches) ++
        (saveEvents args master ++ [Event.memExit "Finetuning" args.memory_track]) := by
    simp [train, List.append_assoc]
  rw [htr, List.getElem?_append_right (by omega)] at h
  have hmem := List.getElem?_mem h
  rcases List.mem_append.mp hmem with hs | hx
  · have : isSave e = true := by
      cases master <;> simp [saveEvents] at hs
      subst hs; rfl
    rw [isSave_eq_false_of_isTrainStep hstep] at this
    exact Bool.false_ne_true this
  · simp at hx
    subst hx
    simp [isTrainStep] at hstep

theorem save_index_lb {args : Args} {ws : Nat} {master : Bool}
    {batches : List Nat} {lr : ℚ} {n : Nat} {e : Event}
    (h : (train args ws master batches lr)[n]? = some e)
    (hsave : isSave e = true) :
    12 + (epochEvents args batches).length ≤ n := by
  by_contra hlt
  push_neg at hlt
  have htr : train args ws master batches lr =
      (setupEvents args ws lr batches ++ epochEvents args batches) ++
        (saveEvents args master ++ [Event.memExit "Finetuning" args.memory_track]) := by
    simp [train, List.append_assoc]
  have hA : (setupEvents args ws lr batches ++ epochEvents args batches).length =
      12 + (epochEvents args batches).length := by
    simp [List.length_append, setupEvents_length]
  rw [htr, List.getElem?_append_left (by omega)] at h
  have hmem := List.getElem?_mem h
  rcases List.mem_append.mp hmem with hs | he
  · rw [isSave_eq_false_of_mem_setup hs] at hsave
    exact Bool.false_ne_true hsave
  · have := isTrainStep_of_mem_epochEvents he
    rw [isSave_eq_false_of_isTrainStep this] at hsave
    exact Bool.false_ne_true hsave

theorem index_lt_exit {args : Args} {ws : Nat} {master : Bool}
    {batches : List Nat} {lr : ℚ} {m : Nat} {e : Event}
    (h : (train args ws master batches lr)[m]? = some e)
    (hne : isTrainStep e = true ∨ isSave e = true) :
    m + 1 < (train args ws master batches lr).length := by
  have htr : train args ws master batches lr =
      (setupEvents args ws lr batches ++ epochEvents args batches ++
        saveEvents args master) ++
        [Event.memExit "Finetuning" args.memory_track] := by
    simp [train, List.append_assoc]
  have hm : m < (train args ws master batches lr).length := by
    by_contra hge
    push_neg at hge
    rw [List.getElem?_eq_none hge] at h
    exact Option.noConfusion h
  have hlen : (train args ws master batches lr).length =
      (setupEvents args ws lr batches ++ epochEvents args batches ++
        saveEvents args master).length + 1 := by
    rw [htr]; simp; omega
  rcases Nat.lt_or_ge m (setupEvents args ws lr batches ++ epochEvents args batches ++
      saveEvents args master).length with hlt | hge
  · omega
  · exfalso
    have hme : m = (setupEvents args ws lr batches ++ epochEvents args batches ++
        saveEvents args master).length := by omega
    rw [htr, hme, List.getElem?_concat_length] at h
    have : e = Event.memExit "Finetuning" args.memory_track :=
      (Option.some.inj h).symm
    exact ne_memExit_of_step_or_save hne _ _ this

theorem save_index_lb_gt_11 {args : Args} {ws : Nat} {master : Bool}
    {batches : List Nat} {lr : ℚ} {n : Nat} {e : Event}
    (h : (train args ws master batches lr)[n]? = some e)
    (hsave : isSave e = true) : 11 < n := by
  have := save_index_lb h hsave
  omega


/-- C6: in every run of `train` the set-up steps occur in the stated
order: the pretrained model is loaded (index 2) and configured (index 3),
then wrapped with the LoRA adapters (index 6), then the dataloader is
assembled (index 7), and only after all of these does any step of the
epoch loop run. -/
theorem train_setup_order (args : Args) (ws : Nat) (master : Bool)
    (batches : List Nat) (lr : ℚ) :
    (train args ws master batches lr)[2]? = some (Event.loadModel args.model) ∧
    (train args ws master batches lr)[3]? = some Event.resizeModel ∧
    (train args ws master batches lr)[6]? = some (Event.wrapLoRA loraCfg) ∧
    (train args ws master batches lr)[7]? = some (dataloaderEvent args) ∧
    (∀ (m : Nat) (e : Event), (train args ws master batches lr)[m]? = some e →
      isTrainStep e = true → 7 < m) := by
  refine ⟨rfl, rfl, rfl, rfl, fun m e h hstep => ?_⟩
  have := trainStep_index_lb h hstep
  omega

/-- C7: the `MemoryTracker` context is entered (index 11) before every
epoch of training and the final save, and exited (last event) after them,
with the instrumentation enabled exactly when the `--memory-track` flag is
set; the flag defaults to disabled. -/
theorem memoryTracker_scoping (args : Args) (ws : Nat) (master : Bool)
    (batches : List Nat) (lr : ℚ) :
    (train args ws master batches lr)[11]? =
      some (Event.memEnter "Finetuning" args.memory_track) ∧
    (train args ws master batches lr).getLast? =
      some (Event.memExit "Finetuning" args.memory_track) ∧
    (∀ (m : Nat) (e : Event), (train args ws master batches lr)[m]? = some e →
      isTrainStep e = true ∨ isSave e = true →
      11 < m ∧ m + 1 < (train args ws master batches lr).length) ∧
    memoryTrackDefault = false := by
  refine ⟨?_, ?_, ?_, rfl⟩
  · rw [train_eq, List.getElem?_append_left (by rw [setupEvents_length]; omega)]
    rfl
  · have htr : train args ws master batches lr =
        (setupEvents args ws lr batches ++ epochEvents args batches ++
          saveEvents args master) ++
          [Event.memExit "Finetuning" args.memory_track] := by
      simp [train, List.append_assoc]
    rw [htr, List.getLast?_concat]
  · intro m e h hor
    refine ⟨?_, index_lt_exit h hor⟩
    rcases hor with hstep | hsave
    · have := trainStep_index_lb h hstep
      omega
    · exact save_index_lb_gt_11 h hsave

theorem countP_isSave_epochEvents (args : Args) (batches : List Nat) :
    (epochEvents args batches).countP isSave = 0 := by
  rw [List.countP_eq_zero]
  intro e he
  simp [isSave_eq_false_of_isTrainStep (isTrainStep_of_mem_epochEvents he)]

theorem countP_isSave_setup (args : Args) (ws : Nat) (lr : ℚ)
    (batches : List Nat) : (setupEvents args ws lr batches).countP isSave = 0 := by
  rw [List.countP_eq_zero]
  intro e he
  simp [isSave_eq_false_of_mem_setup he]

/-- C9: the fine-tuned adapter checkpoint is written exactly once on the
master rank and never on a non-master rank, and every checkpoint write
comes strictly after every training step; no checkpoint is written during
training. -/
theorem save_once_master_after_training (args : Args) (ws : Nat) (master : Bool)
    (batches : List Nat) (lr : ℚ) :
    (train args ws master batches lr).countP isSave =
      (if master then 1 else 0) ∧
    (∀ (m : Nat) (e : Event) (n : Nat) (f : Event),
      (train args ws master batches lr)[m]? = some e →
      isTrainStep e = true →
      (train args ws master batches lr)[n]? = some f →
      isSave f = true → m < n) := by
  constructor
  · rw [train_eq]
    have hsv : (saveEvents args master).countP isSave =
        (if master then 1 else 0) := by
      cases master <;> simp [saveEvents, List.countP_cons, isSave]
    simp [List.countP_append, countP_isSave_setup, countP_isSave_epochEvents,
      hsv, List.countP_cons, isSave]
  · intro m e n f hm hstep hn hsave
    have h1 := trainStep_index_ub hm hstep
    have h2 := save_index_lb hn hsave
    omega

/-- C10: the optimizer is always constructed with learning rate equal to
the base hyper-parameter `LEARNING_RATE` multiplied exactly by the
distributed world size, for every world size. -/
theorem optimizer_lr_world_size (args : Args) (ws : Nat) (master : Bool)
    (batches : List Nat) (lr : ℚ) :
    (train args ws master batches lr)[8]? =
      some (Event.makeOptimizer (lr * ws)) ∧
    (∀ x, Event.makeOptimizer x ∈ train args ws master batches lr →
      x = lr * ws) := by
  refine ⟨rfl, fun x hx => ?_⟩
  rw [train_eq] at hx
  rcases List.mem_append.mp hx with hs | hrest
  · rcases hp : selectPlugin args.plugin with _ | p <;>
    · simp only [setupEvents, dataloaderEvent, hp, List.mem_cons,
        List.not_mem_nil, or_false] at hs
      rcases hs with h | h | h | h | h | h | h | h | h | h | h | h <;>
        simp_all
  · rcases List.mem_append.mp hrest with he | hsv
    · have := isTrainStep_of_mem_epochEvents he
      simp [isTrainStep] at this
    · rcases List.mem_append.mp hsv with hs | hx2
      · cases master <;> simp [saveEvents] at hs
      · simp at hx2


/-- C8: whenever the path given by `--ckpt` already exists, `main` fails
the assertion before `train` is called, so no model loading, wrapping,
training or checkpoint write occurs. -/
theorem ckpt_exists_aborts (args : Args) (pathExists : String → Bool)
    (ws : Nat) (master : Bool) (batches : List Nat) (lr : ℚ)
    (h : pathExists args.ckpt = true) :
    main args pathExists ws master batches lr = Except.error "AssertionError" := by
  simp [main, h]

/-! ### Witnesses -/

theorem plugin_fallback_unreachable_witness :
    exampleArgs.plugin ∈ pluginChoices ∧
    (pluginDefault ∈ pluginChoices ∧
     (selectPlugin exampleArgs.plugin).isSome = true ∧
     dataloaderEvent exampleArgs = Event.pluginDataloader exampleArgs.batch_size ∧
     (train exampleArgs 1 true [0] 0).countP isPlainDataloader = 0) :=
  ⟨by decide, plugin_fallback_unreachable exampleArgs 1 true [0] 0 (by decide)⟩

theorem train_epoch_invocation_count_witness :
    (0 : Int) ≤ exampleArgs.epoch ∧
    (train exampleArgs 1 true [0, 1] 0).countP isModelTrain = 2 :=
  ⟨by decide,
   ((train_epoch_invocation_count exampleArgs 1 true [0, 1] 0 (by decide)).1).trans
     (by decide)⟩

theorem train_setup_order_witness :
    (train exampleArgs 1 true [0] 0)[12]? = some (Event.modelTrain 0) ∧ 7 < 12 :=
  ⟨by decide, (train_setup_order exampleArgs 1 true [0] 0).2.2.2.2 12
    (Event.modelTrain 0) (by decide) (by decide)⟩

theorem memoryTracker_scoping_witness :
    (train exampleArgs 1 false [0, 1] 0)[12]? = some (Event.modelTrain 0) ∧
    11 < 12 ∧ 12 + 1 < (train exampleArgs 1 false [0, 1] 0).length :=
  ⟨by decide, (memoryTracker_scoping exampleArgs 1 false [0, 1] 0).2.2.1 12
    (Event.modelTrain 0) (by decide) (Or.inl (by decide))⟩

theorem ckpt_exists_aborts_witness :
    (fun _ : String => true) exampleArgs.ckpt = true ∧
    main exampleArgs (fun _ : String => true) 1 true [] 0 =
      Except.error "AssertionError" :=
  ⟨rfl, ckpt_exists_aborts exampleArgs (fun _ : String => true) 1 true [] 0 rfl⟩

theorem save_once_master_after_training_witness :
    (train exampleArgs 2 true [0] 0)[12]? = some (Event.modelTrain 0) ∧
    (train exampleArgs 2 true [0] 0)[26]? = some (Event.saveCkpt "./ckpt") ∧
    12 < 26 :=
  ⟨by decide, by decide,
   (save_once_master_after_training exampleArgs 2 true [0] 0).2 12 (Event.modelTrain 0)
     26 (Event.saveCkpt "./ckpt") (by decide) (by decide) (by decide) (by decide)⟩

theorem optimizer_lr_world_size_witness :
    Event.makeOptimizer 6 ∈ train exampleArgs 3 true [0] 2 ∧
    (6 : ℚ) = 2 * (3 : Nat) := by
  have hmem : Event.makeOptimizer 6 ∈ train exampleArgs 3 true [0] 2 := by
    rw [train_eq]
    refine List.mem_append_left _ ?_
    simp only [setupEvents, List.mem_cons]
    norm_num
  exact ⟨hmem, (optimizer_lr_world_size exampleArgs 3 true [0] 2).2 6 hmem⟩

end Finetune